import Mathlib

/-!
Verification of the Luma chat backend (FastAPI + NLU fallback + RAG + LLM glue).

Shallow embedding of:
  * services.py  — ChatService.get_chat_response, _mock_rasa_nlu, _mock_rag_retriever,
                   the in-memory CHAT_HISTORY_CACHE dict
  * api.py       — handle_chat exception-to-status mapping, Depends(get_settings)
  * config.py    — Settings / get_settings required fields
  * schemas.py   — ChatRequest / ChatResponse
  * rag/retriever.py — build_index / retrieve_relevant (brute-force L2 top-k)
  * main.py      — module-level app construction (boot)

External services (the Azure OpenAI client, the HuggingFace classifiers, the
sentence-transformer encoder, faiss exact search) are modelled as oracles or
abstract parameters: each request carries the outcome of the classifier call,
of the retriever call, and of the chat-completion call.
-/

namespace Luma

/-! ## Data model (schemas.py, services.py history turns) -/

/-- One conversation turn as stored in the history dict:
a role tag together with text content. -/
structure Turn where
  role : String
  content : String
deriving DecidableEq, Repr

/-- Request body (schemas.py ChatRequest): `message: str`, `session_id: str | None`. -/
structure ChatRequest where
  message : String
  session_id : Option String
deriving DecidableEq, Repr

/-- Response body (schemas.py ChatResponse). -/
structure ChatResponse where
  response : String
  detected_intent : String
  retrieved_context : String
deriving DecidableEq, Repr

/-- The in-memory `CHAT_HISTORY_CACHE` dict (services.py), modelled as an
association list from session id to the session turn sequence. -/
abbrev Cache := List (String × List Turn)

/-- Dictionary read with default: `CHAT_HISTORY_CACHE.get(session_id, [])`. -/
def cacheGet (c : Cache) (k : String) : List Turn :=
  (c.lookup k).getD []

/-- Dictionary assignment `CHAT_HISTORY_CACHE[session_id] = history`: replace
the binding when the key exists, otherwise add it. -/
def cacheSet : Cache → String → List Turn → Cache
  | [], k, v => [(k, v)]
  | p :: rest, k, v => if p.1 = k then (k, v) :: rest else p :: cacheSet rest k v

/-! ## String helpers: Python lower(), substring containment, strip() -/

/-- Python `str.lower()` (ASCII-faithful). -/
def strLower (s : String) : String := ⟨s.data.map Char.toLower⟩

/-- Python substring containment `pat in s`. -/
def strContains (s pat : String) : Bool := decide (pat.data <:+: s.data)

/-- Python `str.strip()`: drop whitespace from both ends. -/
def pyStrip (s : String) : String :=
  ⟨((s.data.dropWhile Char.isWhitespace).reverse.dropWhile Char.isWhitespace).reverse⟩

/-! ## The keyword fallback classifier (services.py `_mock_rasa_nlu`) -/

/-- `ChatService._mock_rasa_nlu`, reduced to the intent name it produces
(the returned dict is the intent name wrapped with an empty entity list). -/
def mock_rasa_nlu (message : String) : String :=
  let m := strLower message
  if strContains m "yes" || strContains m "ok" || strContains m "sure" then "affirm"
  else if strContains m "no" || strContains m "not really" then "deny"
  else if strContains m "job" || strContains m "deadline" || strContains m "work" then
    "work_stress"
  else if strContains m "exam" || strContains m "study" then "study_anxiety"
  else if strContains m "sad" || strContains m "lonely" then "feeling_depressed"
  else "general_greeting"

/-- Affirmation keyword category of `_mock_rasa_nlu`. -/
def matchesAffirmation (m : String) : Bool :=
  strContains m "yes" || strContains m "ok" || strContains m "sure"

/-- Denial keyword category of `_mock_rasa_nlu`. -/
def matchesDenial (m : String) : Bool :=
  strContains m "no" || strContains m "not really"

/-- Work-stress keyword category of `_mock_rasa_nlu`. -/
def matchesWorkStress (m : String) : Bool :=
  strContains m "job" || strContains m "deadline" || strContains m "work"

/-- Study-anxiety keyword category of `_mock_rasa_nlu`. -/
def matchesStudyAnxiety (m : String) : Bool :=
  strContains m "exam" || strContains m "study"

/-- Depression keyword category of `_mock_rasa_nlu`. -/
def matchesDepressed (m : String) : Bool :=
  strContains m "sad" || strContains m "lonely"

/-- Spec-side priority table: affirmation first, then denial, then the three
domain categories, in the order the source checks them. -/
def fallbackPriority : List ((String → Bool) × String) :=
  [(matchesAffirmation, "affirm"), (matchesDenial, "deny"),
   (matchesWorkStress, "work_stress"), (matchesStudyAnxiety, "study_anxiety"),
   (matchesDepressed, "feeling_depressed")]

/-- Spec-side first-match evaluation of a priority table, with the default
label when no category matches. -/
def firstLabel : List ((String → Bool) × String) → String → String
  | [], _ => "general_greeting"
  | (p, label) :: rest, m => if p m then label else firstLabel rest m

/-! ## The static fallback context lookup (services.py `_mock_rag_retriever`) -/

/-- The `rag_db` dict literal inside `_mock_rag_retriever`. -/
def rag_db : List (String × String) :=
  [("work_stress",
    "Retrieved technique: \x27Try the 5-4-3-2-1 grounding technique to relax.\x27"),
   ("study_anxiety",
    "Retrieved tip: \x27Use the Pomodoro Technique — 25 min study + 5 min break.\x27"),
   ("feeling_depressed",
    "Retrieved affirmation: \x27It\x27s okay to not be okay. Be kind to yourself.\x27"),
   ("general_greeting",
    "Retrieved context: \x27Be warm and welcoming. Ask how they’re feeling today.\x27"),
   ("affirm", "Retrieved context: \x27The user agreed. Continue positively.\x27"),
   ("deny", "Retrieved context: \x27The user declined. Offer gentle alternatives.\x27")]

/-- `ChatService._mock_rag_retriever`: dictionary read with a default. -/
def mock_rag_retriever (intent : String) : String :=
  (rag_db.lookup intent).getD
    "Retrieved context: \x27Acknowledge and respond empathetically.\x27"

/-! ## Oracles for the three external calls -/

/-- Outcome of `analyze_text(request.message)` (nlu/intent_emotion.py): either
the classifier labels, or a raised exception. -/
inductive NluOutcome where
  | success (intent : String) (emotion : String)
  | failure
deriving DecidableEq, Repr

/-- Outcome of `retrieve_relevant(request.message)` as seen by the
orchestrator: either a list of retrieved documents, or a raised exception. -/
inductive RagOutcome where
  | success (docs : List String)
  | failure
deriving DecidableEq, Repr

/-- Outcome of `self.client.chat.completions.create(...)`: the generated
content, an `OpenAIError`, or any other exception. -/
inductive GenOutcome where
  | success (content : String)
  | openaiError
  | otherError
deriving DecidableEq, Repr

/-- The exception that escapes `get_chat_response`. -/
inductive ChatError where
  | openaiError
  | otherError
deriving DecidableEq, Repr

/-- Result of `get_chat_response`: either the response/intent/context tuple,
or a raised exception. -/
inductive ChatResult where
  | ok (response : String) (intent : String) (context : String)
  | error (e : ChatError)
deriving DecidableEq, Repr

/-! ## The orchestrator (services.py `ChatService.get_chat_response`) -/

/-- `request.session_id or "default_session"`: Python `or` takes the right
operand on any falsy left operand, i.e. on `None` and on the empty string. -/
def resolveSession (sid : Option String) : String :=
  match sid with
  | some s => if s = "" then "default_session" else s
  | none => "default_session"

/-- Step 1 of `get_chat_response`: `CHAT_HISTORY_CACHE.get(session_id, [])`. -/
def historyRead (cache : Cache) (request : ChatRequest) : List Turn :=
  cacheGet cache (resolveSession request.session_id)

/-- Step 2 of `get_chat_response`: the intent from `analyze_text`, falling
back to `_mock_rasa_nlu` on a raised exception (both result dicts always carry
the intent key, so the `.get` defaults never fire). -/
def intentOf (nlu : NluOutcome) (message : String) : String :=
  match nlu with
  | .success label _ => label
  | .failure => mock_rasa_nlu message

/-- Step 3 of `get_chat_response`: the first retrieved document when the
retrieved list is non-empty, otherwise `_mock_rag_retriever(intent)`; a raised
exception in the retriever also falls back to `_mock_rag_retriever(intent)`. -/
def contextOf (rag : RagOutcome) (intent : String) : String :=
  match rag with
  | .success (d :: _) => d
  | .success [] => mock_rag_retriever intent
  | .failure => mock_rag_retriever intent

/-- `ChatService.get_chat_response`, state-passing over the history cache.
`clientOk` is whether `self.client` was initialized in `__init__`; with
`self.client` equal to `None` the method raises `OpenAIError` at once.
Steps: resolve session, read history, classify (with fallback), retrieve
(with fallback), call generation; on success append the user turn and the
stripped assistant reply and store the history back; on a raised generation
error the exception propagates (the bare `raise` re-raises the `OpenAIError`;
any other exception is uncaught) and the cache is left as it was. -/
def get_chat_response (clientOk : Bool) (nlu : NluOutcome) (rag : RagOutcome)
    (gen : GenOutcome) (cache : Cache) (request : ChatRequest) :
    ChatResult × Cache :=
  if !clientOk then
    (.error .openaiError, cache)
  else
    let session_id := resolveSession request.session_id
    let history := historyRead cache request
    let intent := intentOf nlu request.message
    let context := contextOf rag intent
    match gen with
    | .success content =>
      let llm_response := pyStrip content
      let history2 := history ++
        [⟨"user", request.message⟩, ⟨"assistant", llm_response⟩]
      (.ok llm_response intent context, cacheSet cache session_id history2)
    | .openaiError => (.error .openaiError, cache)
    | .otherError => (.error .otherError, cache)

/-! ## The HTTP endpoint (api.py `handle_chat`) -/

/-- An HTTP outcome: a 200 with a ChatResponse body, or an HTTPException. -/
inductive HttpResult where
  | ok (body : ChatResponse)
  | httpError (status : Nat) (detail : String)
deriving DecidableEq, Repr

/-- HTTP status of an outcome. -/
def statusOf : HttpResult → Nat
  | .ok _ => 200
  | .httpError s _ => s

/-- api.py `handle_chat`: delegate to `get_chat_response`; an `OpenAIError`
becomes a 503 HTTPException, any other exception a 500 HTTPException. -/
def handle_chat (clientOk : Bool) (nlu : NluOutcome) (rag : RagOutcome)
    (gen : GenOutcome) (cache : Cache) (request : ChatRequest) :
    HttpResult × Cache :=
  match get_chat_response clientOk nlu rag gen cache request with
  | (.ok r i c, cache') => (.ok ⟨r, i, c⟩, cache')
  | (.error .openaiError, cache') =>
    (.httpError 503 "The AI service is currently unavailable. Please try again later.",
     cache')
  | (.error .otherError, cache') =>
    (.httpError 500 "An unexpected server error occurred.", cache')

/-! ## The retriever (rag/retriever.py) -/

/-- Squared L2 distance between two vectors (the faiss IndexFlatL2 metric;
ranking by squared L2 equals ranking by L2). -/
def sqDist (u v : List Int) : Int :=
  (List.zipWith (fun a b => (a - b) * (a - b)) u v).sum

/-- First position attaining the minimum of `d` over the candidate list. -/
def argmin (d : Nat → Int) : List Nat → Option Nat
  | [] => none
  | i :: rest =>
    match argmin d rest with
    | none => some i
    | some j => if d i ≤ d j then some i else some j

/-- Exact k-nearest selection: repeatedly take the first remaining candidate
of minimal distance. This models `faiss.IndexFlatL2.search` per the spec:
compute the distance to every stored vector and return the k closest. -/
def selectIdx (d : Nat → Int) : Nat → List Nat → List Nat
  | 0, _ => []
  | k + 1, cands =>
    match argmin d cands with
    | none => []
    | some i => i :: selectIdx d k (cands.erase i)

/-- rag/retriever.py `build_index`: encode every knowledge-base document. The
encoder (the sentence-transformer model) is an abstract parameter. -/
def build_index (encode : String → List Int) (kb_texts : List String) :
    List (List Int) :=
  kb_texts.map encode

/-- rag/retriever.py `retrieve_relevant`: encode the query, find the `top_k`
nearest stored vectors by L2 distance, map the winning positions back to the
document texts. The source fixes `top_k` to 2 by default and the orchestrator
calls it with that default. -/
def retrieve_relevant (encode : String → List Int) (kb_texts : List String)
    (user_query : String) (top_k : Nat) : List String :=
  let embs := build_index encode kb_texts
  let d := fun i => sqDist (encode user_query) (embs.getD i [])
  (selectIdx d top_k (List.range kb_texts.length)).map (fun i => kb_texts.getD i "")

/-- A degenerate encoder assigning every text the same vector (encoders are
not injective by construction, so this is a legal instance). -/
def constEncode : String → List Int := fun _ => [0]

/-- A toy encoder: the text length as a one-dimensional vector. -/
def lenEncode : String → List Int := fun s => [(s.length : Int)]

/-! ## Configuration and boot (config.py, main.py) -/

/-- config.py Settings: the four required string fields. -/
structure Settings where
  AZURE_OPENAI_ENDPOINT : String
  AZURE_OPENAI_KEY : String
  AZURE_API_VERSION : String
  AZURE_OPENAI_DEPLOYMENT_NAME : String
deriving DecidableEq, Repr

/-- The process environment (plus .env file), as key/value pairs. -/
abbrev Env := List (String × String)

/-- config.py `get_settings` / `Settings()`: each of the four fields is a
required `str`, so pydantic raises a validation error when any is absent. -/
def get_settings (env : Env) : Option Settings :=
  match env.lookup "AZURE_OPENAI_ENDPOINT", env.lookup "AZURE_OPENAI_KEY",
        env.lookup "AZURE_API_VERSION", env.lookup "AZURE_OPENAI_DEPLOYMENT_NAME" with
  | some e, some k, some v, some d => some ⟨e, k, v, d⟩
  | _, _, _, _ => none

/-- main.py module initialization (process boot): configure logging, create
the app, add CORS, include the chat router, register the health route. No
code on this path constructs `Settings` or reads the configuration values
(`get_settings` is only resolved by `Depends` inside the request handler), so
boot yields the served routes whatever the environment holds. -/
def bootApp (_env : Env) : Option (List String) :=
  some ["/api/v1/chat", "/"]

/-- The full request path: FastAPI resolves `Depends(get_settings)` when the
request arrives; a validation error raised there propagates as a 500 internal
server error before `handle_chat` runs. Otherwise `handle_chat` runs with the
service built from the settings. -/
def serveChat (env : Env) (clientOk : Bool) (nlu : NluOutcome) (rag : RagOutcome)
    (gen : GenOutcome) (cache : Cache) (request : ChatRequest) :
    HttpResult × Cache :=
  match get_settings env with
  | none => (.httpError 500 "Internal Server Error", cache)
  | some _ => handle_chat clientOk nlu rag gen cache request

/-! ## Helper lemmas: dictionary reads and writes -/

theorem lookup_cons {β : Type} (a : String) (p : String × β) (l : List (String × β)) :
    List.lookup a (p :: l) = if a = p.1 then some p.2 else List.lookup a l := by
  rcases p with ⟨k, b⟩
  by_cases h : a = k
  · simp [List.lookup, h]
  · have hb : (a == k) = false := beq_eq_false_iff_ne.mpr h
    simp [List.lookup, h, hb]

theorem cacheGet_cacheSet_same (c : Cache) (k : String) (v : List Turn) :
    cacheGet (cacheSet c k v) k = v := by
  induction c with
  | nil => simp [cacheSet, cacheGet, lookup_cons]
  | cons p rest ih =>
    by_cases h : p.1 = k
    · simp [cacheSet, h, cacheGet, lookup_cons]
    · simpa [cacheSet, h, cacheGet, lookup_cons, Ne.symm h] using ih

theorem cacheGet_cacheSet_other (c : Cache) (k k' : String) (v : List Turn)
    (hne : k' ≠ k) : cacheGet (cacheSet c k v) k' = cacheGet c k' := by
  induction c with
  | nil =>
    have hb : (k' == k) = false := beq_eq_false_iff_ne.mpr hne
    simp [cacheSet, cacheGet, List.lookup, hb]
  | cons p rest ih =>
    by_cases h : p.1 = k
    · simp [cacheSet, h, cacheGet, lookup_cons, hne]
    · by_cases h' : k' = p.1
      · simp [cacheSet, h, cacheGet, lookup_cons, h']
      · simpa [cacheSet, h, cacheGet, lookup_cons, h'] using ih

/-! ## Helper lemmas: nearest-neighbor selection and squared L2 distance -/

theorem argmin_none_iff (d : Nat → Int) (l : List Nat) :
    argmin d l = none ↔ l = [] := by
  cases l with
  | nil => simp [argmin]
  | cons a rest =>
    simp only [argmin]
    cases h : argmin d rest with
    | none => simp
    | some j => by_cases hd : d a ≤ d j <;> simp [hd]

theorem argmin_mem (d : Nat → Int) (l : List Nat) (i : Nat)
    (h : argmin d l = some i) : i ∈ l := by
  induction l generalizing i with
  | nil => simp [argmin] at h
  | cons a rest ih =>
    simp only [argmin] at h
    cases hr : argmin d rest with
    | none => rw [hr] at h; simp at h; simp [h]
    | some j =>
      rw [hr] at h
      by_cases hd : d a ≤ d j
      · simp [hd] at h; simp [h]
      · simp [hd] at h
        subst h
        exact List.mem_cons_of_mem a (ih j hr)

theorem argmin_le (d : Nat → Int) (l : List Nat) (i : Nat)
    (h : argmin d l = some i) : ∀ j ∈ l, d i ≤ d j := by
  induction l generalizing i with
  | nil => simp [argmin] at h
  | cons a rest ih =>
    intro j hj
    simp only [argmin] at h
    cases hr : argmin d rest with
    | none =>
      rw [hr] at h
      simp at h
      have : rest = [] := (argmin_none_iff d rest).mp hr
      subst this
      simp at hj
      simp [h, hj]
    | some k =>
      rw [hr] at h
      by_cases hd : d a ≤ d k
      · simp [hd] at h
        subst h
        rcases List.mem_cons.mp hj with rfl | hj'
        · exact le_refl _
        · exact le_trans hd (ih k hr j hj')
      · simp [hd] at h
        subst h
        rcases List.mem_cons.mp hj with rfl | hj'
        · exact le_of_lt (lt_of_not_le hd)
        · exact ih k hr j hj'

theorem argmin_cons_of_le (d : Nat → Int) (i : Nat) (rest : List Nat)
    (h : ∀ j ∈ rest, d i ≤ d j) : argmin d (i :: rest) = some i := by
  simp only [argmin]
  cases hr : argmin d rest with
  | none => rfl
  | some j => simp [h j (argmin_mem d rest j hr)]

theorem argmin_cons_of_not_le (d : Nat → Int) (a : Nat) (l : List Nat) (i : Nat)
    (h : argmin d l = some i) (hlt : ¬ d a ≤ d i) : argmin d (a :: l) = some i := by
  simp only [argmin, h]
  simp [hlt]

theorem argmin_append (d : Nat → Int) (l₁ l₂ : List Nat) (i : Nat)
    (hmin : ∀ j ∈ l₁ ++ i :: l₂, d i ≤ d j)
    (hstrict : ∀ j ∈ l₁, ¬ d j ≤ d i) :
    argmin d (l₁ ++ i :: l₂) = some i := by
  induction l₁ with
  | nil =>
    simp only [List.nil_append]
    exact argmin_cons_of_le d i l₂ (fun j hj => hmin j (by simp [hj]))
  | cons a t ih =>
    have h1 : argmin d (t ++ i :: l₂) = some i := by
      refine ih (fun j hj => hmin j ?_) (fun j hj => hstrict j (by simp [hj]))
      simp only [List.cons_append, List.mem_cons]
      right
      exact hj
    simp only [List.cons_append]
    exact argmin_cons_of_not_le d a _ i h1 (hstrict a (by simp))

theorem selectIdx_subset (d : Nat → Int) (k : Nat) (l : List Nat) :
    ∀ i ∈ selectIdx d k l, i ∈ l := by
  induction k generalizing l with
  | zero => simp [selectIdx]
  | succ k ih =>
    intro i hi
    simp only [selectIdx] at hi
    cases hm : argmin d l with
    | none => rw [hm] at hi; simp at hi
    | some a =>
      rw [hm] at hi
      rcases List.mem_cons.mp hi with rfl | hi'
      · exact argmin_mem d l i hm
      · exact List.mem_of_mem_erase (ih (l.erase a) i hi')

theorem selectIdx_length (d : Nat → Int) (k : Nat) (l : List Nat) :
    (selectIdx d k l).length = min k l.length := by
  induction k generalizing l with
  | zero => simp [selectIdx]
  | succ k ih =>
    simp only [selectIdx]
    cases hm : argmin d l with
    | none =>
      have : l = [] := (argmin_none_iff d l).mp hm
      subst this
      simp
    | some a =>
      have ha : a ∈ l := argmin_mem d l a hm
      have hlen : (l.erase a).length = l.length - 1 := List.length_erase_of_mem ha
      have hpos : 1 ≤ l.length := List.length_pos.mpr (by rintro rfl; simp at ha)
      simp only [List.length_cons, ih, hlen]
      omega

theorem selectIdx_nodup (d : Nat → Int) (k : Nat) (l : List Nat) (hl : l.Nodup) :
    (selectIdx d k l).Nodup := by
  induction k generalizing l with
  | zero => simp [selectIdx]
  | succ k ih =>
    simp only [selectIdx]
    cases hm : argmin d l with
    | none => simp
    | some a =>
      refine List.nodup_cons.mpr ⟨?_, ih (l.erase a) (hl.erase a)⟩
      intro hmem
      have h1 : a ∈ l.erase a := selectIdx_subset d k (l.erase a) a hmem
      exact absurd ((hl.mem_erase_iff).mp h1).1 (by simp)

theorem selectIdx_min (d : Nat → Int) (k : Nat) (l : List Nat) (hl : l.Nodup) :
    ∀ i ∈ selectIdx d k l, ∀ j ∈ l, j ∉ selectIdx d k l → d i ≤ d j := by
  induction k generalizing l with
  | zero => simp [selectIdx]
  | succ k ih =>
    intro i hi j hj hjn
    simp only [selectIdx] at hi hjn
    cases hm : argmin d l with
    | none => rw [hm] at hi; simp at hi
    | some a =>
      rw [hm] at hi hjn
      have hjn' : j ≠ a ∧ j ∉ selectIdx d k (l.erase a) := by
        constructor
        · intro hq; exact hjn (hq ▸ List.mem_cons_self a _)
        · intro hq; exact hjn (List.mem_cons_of_mem a hq)
      rcases List.mem_cons.mp hi with rfl | hi'
      · exact argmin_le d l i hm j hj
      · have hj' : j ∈ l.erase a := (hl.mem_erase_iff).mpr ⟨hjn'.1, hj⟩
        exact ih (l.erase a) (hl.erase a) i hi' j hj' hjn'.2

theorem selectIdx_succ_of_argmin (d : Nat → Int) (k : Nat) (l : List Nat) (i : Nat)
    (h : argmin d l = some i) :
    selectIdx d (k + 1) l = i :: selectIdx d k (l.erase i) := by
  simp only [selectIdx, h]

theorem sqDist_self (v : List Int) : sqDist v v = 0 := by
  induction v with
  | nil => rfl
  | cons a t ih => simp [sqDist, List.zipWith_cons_cons, sub_self] at ih ⊢

theorem sqDist_nonneg (u v : List Int) : 0 ≤ sqDist u v := by
  induction u generalizing v with
  | nil => simp [sqDist]
  | cons a t ih =>
    cases v with
    | nil => simp [sqDist]
    | cons b s =>
      have h1 : 0 ≤ (a - b) * (a - b) := mul_self_nonneg _
      have h2 : 0 ≤ sqDist t s := ih s
      simp only [sqDist, List.zipWith_cons_cons, List.sum_cons]
      exact add_nonneg h1 h2

theorem getD_map {α β : Type} (f : α → β) (l : List α) (i : Nat)
    (hi : i < l.length) (da : α) (db : β) :
    (l.map f).getD i db = f (l.getD i da) := by
  induction l generalizing i with
  | nil => simp at hi
  | cons a t ih =>
    cases i with
    | zero => simp
    | succ n =>
      simp only [List.map_cons, List.getD_cons_succ]
      exact ih n (Nat.lt_of_succ_lt_succ hi)

theorem range_split (n i : Nat) (hi : i < n) :
    List.range n = List.range i ++ i :: ((List.range n).drop (i + 1)) := by
  have h1 : List.range n = (List.range n).take i ++ (List.range n).drop i :=
    (List.take_append_drop i (List.range n)).symm
  have h2 : (List.range n).take i = List.range i := by
    rw [List.take_range]
    congr 1
    omega
  have h3 : (List.range n).drop i = i :: (List.range n).drop (i + 1) := by
    have hlen : i < (List.range n).length := by simpa using hi
    rw [List.drop_eq_getElem_cons hlen]
    simp
  conv_lhs => rw [h1]
  rw [h2, h3]

/-! ## Helper lemmas: first-match evaluation of a priority table -/

theorem firstLabel_append (pre post : List ((String → Bool) × String))
    (p : String → Bool) (label m : String) (hp : p m = true)
    (hpre : ∀ q ∈ pre, q.1 m = false) :
    firstLabel (pre ++ (p, label) :: post) m = label := by
  induction pre with
  | nil => simp [firstLabel, hp]
  | cons q rest ih =>
    rcases q with ⟨qp, ql⟩
    have hq : qp m = false := hpre (qp, ql) (by simp)
    have : ∀ r ∈ rest, r.1 m = false := fun r hr => hpre r (by simp [hr])
    simp [firstLabel, hq, ih this]

theorem firstLabel_default (l : List ((String → Bool) × String)) (m : String)
    (h : ∀ q ∈ l, q.1 m = false) : firstLabel l m = "general_greeting" := by
  induction l with
  | nil => rfl
  | cons q rest ih =>
    rcases q with ⟨qp, ql⟩
    have hq : qp m = false := h (qp, ql) (by simp)
    have : ∀ r ∈ rest, r.1 m = false := fun r hr => h r (by simp [hr])
    simp [firstLabel, hq, ih this]

/-! ## Claim theorems -/

/-- C1: if the chat-completion call raises a generation-service error,
`get_chat_response` propagates the failure untouched to the caller and the
session-history mapping is unchanged — no turn is appended to any session. -/
theorem c1_generation_failure_propagated_history_unchanged
    (nlu : NluOutcome) (rag : RagOutcome) (cache : Cache) (request : ChatRequest) :
    get_chat_response true nlu rag .openaiError cache request =
      (.error .openaiError, cache) := by
  simp [get_chat_response]

/-- C2: the endpoint returns 503 exactly when an `OpenAIError` is raised
(either the unconfigured-client guard or the generation call), 500 exactly for
any other unhandled exception, and 200 with reply, detected intent and
retrieved context otherwise. -/
theorem c2_status_mapping (clientOk : Bool) (nlu : NluOutcome) (rag : RagOutcome)
    (gen : GenOutcome) (cache : Cache) (request : ChatRequest) :
    (clientOk = false →
      statusOf (handle_chat clientOk nlu rag gen cache request).1 = 503) ∧
    (clientOk = true →
      (statusOf (handle_chat clientOk nlu rag gen cache request).1 = 503 ↔
        gen = .openaiError) ∧
      (statusOf (handle_chat clientOk nlu rag gen cache request).1 = 500 ↔
        gen = .otherError) ∧
      (∀ content, gen = .success content →
        (handle_chat clientOk nlu rag gen cache request).1 =
          .ok ⟨pyStrip content, intentOf nlu request.message,
               contextOf rag (intentOf nlu request.message)⟩)) := by
  cases clientOk <;> cases gen <;>
    simp [handle_chat, get_chat_response, statusOf]

/-- C2 witness: concrete instances of the three status outcomes. -/
theorem c2_status_mapping_witness :
    statusOf (handle_chat false .failure .failure (.success "x") []
      ⟨"hi", none⟩).1 = 503 ∧
    statusOf (handle_chat true .failure .failure .openaiError []
      ⟨"hi", none⟩).1 = 503 ∧
    statusOf (handle_chat true .failure .failure .otherError []
      ⟨"hi", none⟩).1 = 500 ∧
    (handle_chat true (.success "joy" "joy") (.success ["doc"]) (.success " ok ")
      [] ⟨"hi", none⟩).1 = .ok ⟨"ok", "joy", "doc"⟩ := by
  refine ⟨(c2_status_mapping false .failure .failure (.success "x") []
      ⟨"hi", none⟩).1 rfl, ?_, ?_, ?_⟩
  · exact ((c2_status_mapping true .failure .failure .openaiError []
      ⟨"hi", none⟩).2 rfl).1.mpr rfl
  · exact ((c2_status_mapping true .failure .failure .otherError []
      ⟨"hi", none⟩).2 rfl).2.1.mpr rfl
  · exact (((c2_status_mapping true (.success "joy" "joy") (.success ["doc"])
      (.success " ok ") [] ⟨"hi", none⟩).2 rfl).2.2 " ok " rfl).trans (by decide)

/-- C3: the keyword fallback classifier evaluates a fixed priority table —
affirmation keywords first, then denial, then the three domain categories —
on the lowercased input; an earlier-priority match determines the label no
matter which later categories also match, and with no match at all the
default label `general_greeting` results. Being a function of the input text,
it is deterministic. -/
theorem c3_fallback_priority_order (message : String) :
    mock_rasa_nlu message = firstLabel fallbackPriority (strLower message) ∧
    (∀ pre post p label, fallbackPriority = pre ++ (p, label) :: post →
      p (strLower message) = true →
      (∀ q ∈ pre, q.1 (strLower message) = false) →
      mock_rasa_nlu message = label) ∧
    ((∀ q ∈ fallbackPriority, q.1 (strLower message) = false) →
      mock_rasa_nlu message = "general_greeting") := by
  refine ⟨rfl, ?_, ?_⟩
  · intro pre post p label htable hp hpre
    calc mock_rasa_nlu message = firstLabel fallbackPriority (strLower message) := rfl
      _ = firstLabel (pre ++ (p, label) :: post) (strLower message) := by rw [htable]
      _ = label := firstLabel_append pre post p label _ hp hpre
  · intro hall
    calc mock_rasa_nlu message = firstLabel fallbackPriority (strLower message) := rfl
      _ = "general_greeting" := firstLabel_default _ _ hall

/-- C3 witness: the message matches both the denial and the work-stress
categories; the earlier-priority denial wins. A no-keyword message falls to
the default label. -/
theorem c3_fallback_priority_order_witness :
    mock_rasa_nlu "No work today" = "deny" ∧
    mock_rasa_nlu "hi there" = "general_greeting" := by
  constructor
  · exact (c3_fallback_priority_order "No work today").2.1
      [(matchesAffirmation, "affirm")]
      [(matchesWorkStress, "work_stress"), (matchesStudyAnxiety, "study_anxiety"),
       (matchesDepressed, "feeling_depressed")]
      matchesDenial "deny" rfl (by decide) (by decide)
  · exact (c3_fallback_priority_order "hi there").2.2 (by decide)

/-- C4: a raised exception in the classifier or in the retriever is never
surfaced: the orchestrator substitutes the keyword fallback intent and the
static lookup context, the request still reaches the generation call, and the
result is an error only by the generation outcome. -/
theorem c4_classifier_retriever_failures_recovered
    (nlu : NluOutcome) (rag : RagOutcome) (gen : GenOutcome) (cache : Cache)
    (request : ChatRequest) :
    ((∃ e, (get_chat_response true nlu rag gen cache request).1 = .error e) ↔
      gen = .openaiError ∨ gen = .otherError) ∧
    (∀ content, gen = .success content →
      (get_chat_response true nlu rag gen cache request).1 =
        .ok (pyStrip content) (intentOf nlu request.message)
          (contextOf rag (intentOf nlu request.message))) ∧
    intentOf .failure request.message = mock_rasa_nlu request.message ∧
    (∀ intent, contextOf .failure intent = mock_rag_retriever intent) ∧
    (∀ intent, contextOf (.success []) intent = mock_rag_retriever intent) := by
  refine ⟨?_, ?_, rfl, fun _ => rfl, fun _ => rfl⟩
  · cases gen <;> simp [get_chat_response]
  · intro content hg
    subst hg
    simp [get_chat_response]

/-- C4 witness: with both the classifier and the retriever failing, a request
still succeeds, carrying the keyword fallback intent and the static fallback
context (the study-anxiety example of the spec). -/
theorem c4_classifier_retriever_failures_recovered_witness :
    (get_chat_response true .failure .failure (.success "Hello") []
      ⟨"I have an exam tomorrow", none⟩).1 =
      .ok "Hello" "study_anxiety"
        "Retrieved tip: \x27Use the Pomodoro Technique — 25 min study + 5 min break.\x27" := by
  exact ((c4_classifier_retriever_failures_recovered .failure .failure
    (.success "Hello") [] ⟨"I have an exam tomorrow", none⟩).2.1 "Hello" rfl).trans
    (by decide)

/-- C5: requests with the same resolved session identifier read and extend one
shared history sequence, and requests with different resolved session
identifiers never read or mutate each other: running one request leaves every
other session key untouched, while a successful request extends exactly the
history a same-session follow-up reads. -/
theorem c5_session_isolation
    (clientOk : Bool) (nlu : NluOutcome) (rag : RagOutcome) (gen : GenOutcome)
    (cache : Cache) (req1 req2 : ChatRequest) :
    (resolveSession req2.session_id ≠ resolveSession req1.session_id →
      historyRead (get_chat_response clientOk nlu rag gen cache req1).2 req2 =
        historyRead cache req2) ∧
    (∀ content, gen = .success content → clientOk = true →
      resolveSession req2.session_id = resolveSession req1.session_id →
      historyRead (get_chat_response clientOk nlu rag gen cache req1).2 req2 =
        historyRead cache req1 ++
          [⟨"user", req1.message⟩, ⟨"assistant", pyStrip content⟩]) := by
  constructor
  · intro hne
    cases clientOk
    · simp [get_chat_response]
    · cases gen <;>
        simp [get_chat_response, historyRead, cacheGet_cacheSet_other _ _ _ _ hne]
  · intro content hg hc hsame
    subst hg; subst hc
    simp [get_chat_response, historyRead, hsame, cacheGet_cacheSet_same]

/-- C5 witness: a successful request on session `s` extends the history the
same-session follow-up reads, and leaves session `t` untouched. -/
theorem c5_session_isolation_witness :
    historyRead (get_chat_response true .failure .failure (.success "Hi") []
      ⟨"m", some "s"⟩).2 ⟨"m2", some "t"⟩ = [] ∧
    historyRead (get_chat_response true .failure .failure (.success "Hi") []
      ⟨"m", some "s"⟩).2 ⟨"m2", some "s"⟩ =
      [⟨"user", "m"⟩, ⟨"assistant", "Hi"⟩] := by
  constructor
  · exact ((c5_session_isolation true .failure .failure (.success "Hi") []
      ⟨"m", some "s"⟩ ⟨"m2", some "t"⟩).1 (by decide)).trans (by decide)
  · exact ((c5_session_isolation true .failure .failure (.success "Hi") []
      ⟨"m", some "s"⟩ ⟨"m2", some "s"⟩).2 "Hi" rfl rfl (by decide)).trans (by decide)

/-- C6: on a successful request the resolved session history becomes the prior
history followed by exactly two new turns — the user turn with the raw message,
then the assistant turn with the generated (stripped) reply — and every other
session is unchanged; the stored assistant content equals the returned reply. -/
theorem c6_success_appends_exactly_two_turns
    (nlu : NluOutcome) (rag : RagOutcome) (content : String) (cache : Cache)
    (request : ChatRequest) :
    cacheGet (get_chat_response true nlu rag (.success content) cache request).2
        (resolveSession request.session_id) =
      cacheGet cache (resolveSession request.session_id) ++
        [⟨"user", request.message⟩, ⟨"assistant", pyStrip content⟩] ∧
    (∀ k, k ≠ resolveSession request.session_id →
      cacheGet (get_chat_response true nlu rag (.success content) cache request).2 k =
        cacheGet cache k) ∧
    (get_chat_response true nlu rag (.success content) cache request).1 =
      .ok (pyStrip content) (intentOf nlu request.message)
        (contextOf rag (intentOf nlu request.message)) := by
  refine ⟨?_, ?_, ?_⟩
  · simp [get_chat_response, historyRead, cacheGet_cacheSet_same]
  · intro k hk
    simp [get_chat_response, cacheGet_cacheSet_other _ _ _ _ hk]
  · simp [get_chat_response]

/-- C6 witness: the concrete frame effect of one successful request. -/
theorem c6_success_appends_exactly_two_turns_witness :
    cacheGet (get_chat_response true .failure .failure (.success " R ")
      [("s", [⟨"user", "old"⟩])] ⟨"m", some "s"⟩).2 "s" =
      [⟨"user", "old"⟩, ⟨"user", "m"⟩, ⟨"assistant", "R"⟩] ∧
    cacheGet (get_chat_response true .failure .failure (.success " R ")
      [("s", [⟨"user", "old"⟩])] ⟨"m", some "s"⟩).2 "t" = [] := by
  constructor
  · exact ((c6_success_appends_exactly_two_turns .failure .failure " R "
      [("s", [⟨"user", "old"⟩])] ⟨"m", some "s"⟩).1).trans (by decide)
  · exact ((c6_success_appends_exactly_two_turns .failure .failure " R "
      [("s", [⟨"user", "old"⟩])] ⟨"m", some "s"⟩).2.1 "t" (by decide)).trans
      (by decide)

/-- C7: for every query over a non-empty knowledge base the retriever encodes
the query, measures L2 distance to every stored vector, and returns the texts
of exactly the K closest documents (K fixed at 2, the source default used by
the orchestrator): the selected positions are distinct, in range, number
min 2 N, and dominate every unselected position in distance. -/
theorem c7_topk_closest (encode : String → List Int) (kb_texts : List String)
    (q : String) (_hne : kb_texts ≠ []) :
    ∃ sel : List Nat,
      retrieve_relevant encode kb_texts q 2 =
        sel.map (fun i => kb_texts.getD i "") ∧
      sel.length = min 2 kb_texts.length ∧
      sel.Nodup ∧
      (∀ i ∈ sel, i < kb_texts.length) ∧
      (∀ i ∈ sel, ∀ j, j < kb_texts.length → j ∉ sel →
        sqDist (encode q) ((build_index encode kb_texts).getD i []) ≤
          sqDist (encode q) ((build_index encode kb_texts).getD j [])) := by
  refine ⟨selectIdx
      (fun i => sqDist (encode q) ((build_index encode kb_texts).getD i []))
      2 (List.range kb_texts.length), rfl, ?_, ?_, ?_, ?_⟩
  · rw [selectIdx_length]
    simp
  · exact selectIdx_nodup _ _ _ (List.nodup_range _)
  · intro i hi
    exact List.mem_range.mp (selectIdx_subset _ _ _ i hi)
  · intro i hi j hj hjn
    exact selectIdx_min _ 2 _ (List.nodup_range _) i hi j (List.mem_range.mpr hj) hjn

/-- C8 counterexample: two documents share an encoding (encoders are not
injective); the query equals the second stored document, yet the top match is
the first document, not that one. The claim as stated is false. -/
theorem c8_counterexample :
    constEncode "doc B" = (build_index constEncode ["doc A", "doc B"]).getD 1 [] ∧
    (retrieve_relevant constEncode ["doc A", "doc B"] "doc B" 2).head? =
      some "doc A" ∧
    "doc A" ≠ "doc B" := by
  decide

/-- C8 amended: the top match is at distance 0, namely the first (lowest
index) stored document whose vector is at L2 distance 0 from the query
vector; a query encoding equal to that stored encoding gives distance 0, and
when the matching document is the first at distance 0 — in particular when no
other document shares the encoding — it is returned as the top match. -/
theorem c8_amended_first_zero_distance (encode : String → List Int)
    (kb_texts : List String) (q : String) (i : Nat)
    (hi : i < kb_texts.length)
    (henc : encode (kb_texts.getD i "") = encode q)
    (hfirst : ∀ j, j < i →
      sqDist (encode q) ((build_index encode kb_texts).getD j []) ≠ 0) :
    (retrieve_relevant encode kb_texts q 2).head? =
      some (kb_texts.getD i "") ∧
    sqDist (encode q) ((build_index encode kb_texts).getD i []) = 0 := by
  have hdi : sqDist (encode q) ((build_index encode kb_texts).getD i []) = 0 := by
    have hmap : (build_index encode kb_texts).getD i [] =
        encode (kb_texts.getD i "") := getD_map encode kb_texts i hi "" []
    rw [hmap, henc, sqDist_self]
  have hnn : ∀ j, 0 ≤ sqDist (encode q) ((build_index encode kb_texts).getD j []) :=
    fun j => sqDist_nonneg _ _
  have harg : argmin
      (fun j => sqDist (encode q) ((build_index encode kb_texts).getD j []))
      (List.range kb_texts.length) = some i := by
    rw [range_split kb_texts.length i hi]
    apply argmin_append
    · intro j _
      rw [hdi]
      exact hnn j
    · intro j hj
      have hji : j < i := List.mem_range.mp hj
      intro hle
      exact hfirst j hji (le_antisymm (hdi ▸ hle) (hnn j))
  refine ⟨?_, hdi⟩
  show ((selectIdx
      (fun j => sqDist (encode q) ((build_index encode kb_texts).getD j []))
      2 (List.range kb_texts.length)).map (fun j => kb_texts.getD j "")).head? = _
  rw [selectIdx_succ_of_argmin _ _ _ _ harg]
  simp

/-- C8 amended witness: a length encoder; the query matches the second
document and no earlier one, so it is the top match. -/
theorem c8_amended_witness :
    (retrieve_relevant lenEncode ["c", "ab"] "xy" 2).head? = some "ab" := by
  have h := c8_amended_first_zero_distance lenEncode ["c", "ab"] "xy" 1
    (by decide) (by decide)
    (by
      intro j hj
      have : j = 0 := by omega
      subst this
      decide)
  exact h.1

/-- C7 witness: the theorem instantiated on a three-document knowledge base
with a length encoder. -/
theorem c7_witness :
    (["a", "bb", "ccc"] : List String) ≠ [] ∧
    ∃ sel : List Nat,
      retrieve_relevant lenEncode ["a", "bb", "ccc"] "xy" 2 =
        sel.map (fun i => (["a", "bb", "ccc"] : List String).getD i "") ∧
      sel.length = min 2 (["a", "bb", "ccc"] : List String).length ∧
      sel.Nodup ∧
      (∀ i ∈ sel, i < (["a", "bb", "ccc"] : List String).length) ∧
      (∀ i ∈ sel, ∀ j, j < (["a", "bb", "ccc"] : List String).length → j ∉ sel →
        sqDist (lenEncode "xy")
            ((build_index lenEncode ["a", "bb", "ccc"]).getD i []) ≤
          sqDist (lenEncode "xy")
            ((build_index lenEncode ["a", "bb", "ccc"]).getD j [])) :=
  ⟨by decide, c7_topk_closest lenEncode ["a", "bb", "ccc"] "xy" (by decide)⟩

/-- C9 counterexample: with the empty environment every one of the four
required configuration values is absent, yet boot succeeds — main.py never
constructs `Settings`, so the process comes up and exposes its routes. The
claim that the process fails fast at boot is false on the code. -/
theorem c9_boot_succeeds_without_config :
    get_settings [] = none ∧ bootApp [] = some ["/api/v1/chat", "/"] := by
  exact ⟨rfl, rfl⟩

/-- C9 amended: with any required configuration value absent, settings
resolution fails when a chat request arrives, so every chat request ends in
an internal error with the history untouched — no chat request is ever served
successfully — but the failure happens at request time, not at process boot. -/
theorem c9_missing_config_fails_every_chat_request (env : Env)
    (h : get_settings env = none)
    (clientOk : Bool) (nlu : NluOutcome) (rag : RagOutcome) (gen : GenOutcome)
    (cache : Cache) (request : ChatRequest) :
    serveChat env clientOk nlu rag gen cache request =
      (.httpError 500 "Internal Server Error", cache) ∧
    statusOf (serveChat env clientOk nlu rag gen cache request).1 ≠ 200 := by
  refine ⟨?_, ?_⟩ <;> simp [serveChat, h, statusOf]

/-- C9 witness: a concrete environment carrying only the API key still fails
every chat request with a 500. -/
theorem c9_missing_config_fails_every_chat_request_witness :
    serveChat [("AZURE_OPENAI_KEY", "k")] true .failure .failure (.success "r")
      [] ⟨"m", none⟩ = (.httpError 500 "Internal Server Error", []) := by
  exact (c9_missing_config_fails_every_chat_request [("AZURE_OPENAI_KEY", "k")]
    (by decide) true .failure .failure (.success "r") [] ⟨"m", none⟩).1

/-- C10: an empty-string session identifier (the only falsy non-None value of
a string field) resolves to the constant default bucket, so such a request
behaves identically — same result, same cache — to one omitting the field. -/
theorem c10_empty_session_id_is_default
    (clientOk : Bool) (nlu : NluOutcome) (rag : RagOutcome) (gen : GenOutcome)
    (cache : Cache) (message : String) :
    get_chat_response clientOk nlu rag gen cache ⟨message, some ""⟩ =
      get_chat_response clientOk nlu rag gen cache ⟨message, none⟩ ∧
    resolveSession (some "") = "default_session" ∧
    resolveSession none = "default_session" ∧
    (∀ s, s ≠ "" → resolveSession (some s) = s) := by
  refine ⟨rfl, rfl, rfl, ?_⟩
  intro s hs
  simp [resolveSession, hs]

/-- C10 witness: the non-falsy branch at a concrete identifier. -/
theorem c10_empty_session_id_is_default_witness :
    resolveSession (some "abc") = "abc" ∧
    get_chat_response true .failure .failure .openaiError [] ⟨"m", some ""⟩ =
      get_chat_response true .failure .failure .openaiError [] ⟨"m", none⟩ := by
  exact ⟨(c10_empty_session_id_is_default true .failure .failure .openaiError
    [] "m").2.2.2 "abc" (by decide),
    (c10_empty_session_id_is_default true .failure .failure .openaiError
    [] "m").1⟩

end Luma
